import Mathlib

/-!
Verification development for a simple banking system.

The program keeps card records in a SQLite table
`card(id, number, pin, balance)`; the `id` column holds the 9-digit
account number, the `number` column holds the 16-digit card number
(both as text), and `balance` is an integer.  We model digit strings
as lists of decimal digits (`List Nat`) and the table as a list of
rows.  Fallible operations (Python code that would raise an uncaught
exception) return `Option`.
-/

namespace SimpleBanking

/-- Row of the `card` table, in column order: `id` (account number),
`number` (card number), `pin`, `balance`. -/
structure CardRow where
  id : List Nat
  number : List Nat
  pin : List Nat
  balance : Int
deriving DecidableEq

/-- The `card` table: a list of rows, in insertion order. -/
abbrev Db := List CardRow

/-- Digits of the constant bank identification number `'400000'` that
starts every generated card number. -/
def bankCode : List Nat := [4, 0, 0, 0, 0, 0]

/-- First Luhn pass, from `generate_checksum` / `passes_luhn`:
multiply the digits at even (0-based) indices by 2, in place. -/
def doubleEvens (l : List Nat) : List Nat :=
  l.enum.map (fun p => if p.1 % 2 == 0 then p.2 * 2 else p.2)

/-- Second Luhn pass: subtract 9 from every entry over 9. -/
def sub9 (l : List Nat) : List Nat :=
  l.map (fun d => if d > 9 then d - 9 else d)

/-- The `control` sum both Luhn routines compute: double the digits at
even indices, reduce entries over 9 by 9, and sum. -/
def luhnControl (l : List Nat) : Nat :=
  (sub9 (doubleEvens l)).sum

/-- Account.generate_checksum: the Luhn check digit computed over the
15 digits `'400000' + account_number`. -/
def generate_checksum (account_number : List Nat) : Nat :=
  (10 - (luhnControl (bankCode ++ account_number)) % 10) % 10

/-- Account.generate_card_number: the digits of
`'400000' + account_number + checksum`. -/
def generate_card_number (account_number : List Nat) : List Nat :=
  bankCode ++ account_number ++ [generate_checksum account_number]

/-- Check for `passes_luhn`: the last digit is the checksum, the rest is
transformed by the two Luhn passes and summed; the number passes when
`control + checksum` is divisible by 10. -/
def passes_luhn (card_num : List Nat) : Bool :=
  let checksum := card_num.getLastD 0
  let payload := card_num.dropLast
  (luhnControl payload + checksum) % 10 == 0

/-- The query `SELECT * FROM card WHERE number=?` followed by
`fetchone()`: the first row whose `number` column equals the argument. -/
def find_card (db : Db) (card_num : List Nat) : Option CardRow :=
  db.find? (fun r => r.number == card_num)

/-- get_balance: balance of the first row whose `number` matches, or
`none` when the card is absent. -/
def get_balance (db : Db) (card_num : List Nat) : Option Int :=
  (find_card db card_num).map (·.balance)

/-- update_balance: reads the matching row's balance and runs
`UPDATE card SET balance=current+amount WHERE number=?` (which rewrites
every matching row).  When no row matches, `fetchone()[0]` raises an
uncaught TypeError in the source; we model that outcome as `none`. -/
def update_balance (db : Db) (card_num : List Nat) (amount : Int) : Option Db :=
  match find_card db card_num with
  | none => none
  | some row =>
      some (db.map (fun r =>
        if r.number == card_num then { r with balance := row.balance + amount } else r))

/-- Outcome of do_transfer, one constructor per message the function can
print before returning. -/
inductive TransferOutcome where
  | invalidDestination
  | selfTransfer
  | destinationNotFound
  | insufficientFunds
  | success
deriving DecidableEq

/-- do_transfer: validates the destination (Luhn, self-transfer,
existence), then compares the amount against the source balance and
applies the two update_balance legs.  When the source card is absent,
`get_balance` yields `None` and the comparison `amount > from_balance`
raises an uncaught TypeError in the source; we model that as `none`. -/
def do_transfer (db : Db) (from_card_num to_card_num : List Nat) (amount : Int) :
    Option (TransferOutcome × Db) :=
  if ¬ passes_luhn to_card_num then some (.invalidDestination, db)
  else if from_card_num == to_card_num then some (.selfTransfer, db)
  else
    match get_balance db to_card_num with
    | none => some (.destinationNotFound, db)
    | some _ =>
        match get_balance db from_card_num with
        | none => none
        | some fb =>
            if amount > fb then some (.insufficientFunds, db)
            else
              match update_balance db from_card_num (-amount) with
              | none => none
              | some db1 =>
                  match update_balance db1 to_card_num amount with
                  | none => none
                  | some db2 => some (.success, db2)

/-- Account.generate_account_number: draws 9-digit candidates until the
query `SELECT * FROM card WHERE number=?` (with the candidate) returns
no row.  The random draws are modelled as a list of candidates; `none`
models exhausting them (the loop running forever). -/
def generate_account_number (draws : List (List Nat)) (db : Db) : Option (List Nat) :=
  match draws with
  | [] => none
  | d :: rest =>
      match find_card db d with
      | none => some d
      | some _ => generate_account_number rest db

/-- create_card: builds an Account (account number, checksum, card
number, pin) and runs `INSERT INTO card VALUES (?, ?, ?, ?)` with
`(account_number, card_number, pin, balance)`, appending a row whose
`id` is the account number and whose `number` is the card number. -/
def create_card (draws : List (List Nat)) (pin : List Nat) (db : Db) :
    Option (CardRow × Db) :=
  match generate_account_number draws db with
  | none => none
  | some acct =>
      let row : CardRow :=
        { id := acct, number := generate_card_number acct, pin := pin, balance := 0 }
      some (row, db ++ [row])

/-- Account number of the spec's worked Luhn example, `"003424062"`. -/
def acct003424062 : List Nat := [0, 0, 3, 4, 2, 4, 0, 6, 2]

/-- Effect of one update_balance on a single row when the row found by
`find_card` is the only one matching: the matching row's balance grows
by `amount`, every other row is untouched. -/
def addBal (card_num : List Nat) (amount : Int) (r : CardRow) : CardRow :=
  if r.number == card_num then { r with balance := r.balance + amount } else r

/-- Row-level effect of a successful transfer: the source row is
debited by `amount`, the destination row is credited by `amount`, and
every other row is untouched. -/
def transferMap (from_card to_card : List Nat) (amount : Int) (r : CardRow) : CardRow :=
  if r.number == from_card then { r with balance := r.balance - amount }
  else if r.number == to_card then { r with balance := r.balance + amount }
  else r

/-- Well-formed table: no two rows share a card number (the spec's
`cardNumber` uniqueness invariant). -/
abbrev UniqueNumbers (db : Db) : Prop :=
  db.Pairwise (fun r s => r.number ≠ s.number)

/-- Non-negativity of every stored balance. -/
abbrev NonNegDb (db : Db) : Prop :=
  ∀ r ∈ db, 0 ≤ r.balance

/-- Concrete card number for account `"123456789"`, used in witnesses. -/
def cardA : List Nat := generate_card_number [1, 2, 3, 4, 5, 6, 7, 8, 9]

/-- Concrete card number for account `"003424062"`, used in witnesses. -/
def cardB : List Nat := generate_card_number acct003424062

/-- Concrete stored row for `cardA` with balance 100. -/
def rowA : CardRow :=
  { id := [1, 2, 3, 4, 5, 6, 7, 8, 9], number := cardA, pin := [1, 1, 1, 1], balance := 100 }

/-- Concrete stored row for `cardB` with balance 50. -/
def rowB : CardRow :=
  { id := acct003424062, number := cardB, pin := [2, 2, 2, 2], balance := 50 }

/-- Concrete two-card table used in witnesses. -/
def dbAB : Db := [rowA, rowB]

/-- C1: round-trip of generation and validation.  For every 9-digit
account number, the card number composed by the generator — bank code
`'400000'`, then the account number, then the generated checksum
digit — passes the Luhn validation routine `passes_luhn`. -/
theorem generated_card_passes_luhn (acct : List Nat)
    (h9 : acct.length = 9) (hd : ∀ d ∈ acct, d < 10) :
    passes_luhn (generate_card_number acct) = true := by
  unfold generate_card_number passes_luhn
  rw [List.dropLast_concat, List.getLastD_concat]
  simp only [beq_iff_eq]
  unfold generate_checksum
  omega

/-- C1 witness: the round-trip theorem at the concrete account number
`"123456789"`. -/
theorem generated_card_passes_luhn_witness :
    passes_luhn (generate_card_number [1, 2, 3, 4, 5, 6, 7, 8, 9]) = true :=
  generated_card_passes_luhn [1, 2, 3, 4, 5, 6, 7, 8, 9] (by decide) (by decide)

/-- C2 counterexample: the checksum digit the code computes for account
number `"003424062"` is not 8. -/
theorem checksum_of_003424062_ne_eight :
    ¬ generate_checksum acct003424062 = 8 := by decide

/-- C2 (amended): for account number `"003424062"` the computed
checksum digit is 4, the composed card number is
`"4000000034240624"`, that card number passes validation, and the card
number ending in 8 claimed by the spec fails validation. -/
theorem checksum_of_003424062 :
    generate_checksum acct003424062 = 4 ∧
    generate_card_number acct003424062 =
      [4, 0, 0, 0, 0, 0, 0, 0, 3, 4, 2, 4, 0, 6, 2, 4] ∧
    passes_luhn [4, 0, 0, 0, 0, 0, 0, 0, 3, 4, 2, 4, 0, 6, 2, 4] = true ∧
    passes_luhn [4, 0, 0, 0, 0, 0, 0, 0, 3, 4, 2, 4, 0, 6, 2, 8] = false := by
  decide

/-- C3: on a 16-digit string, `passes_luhn` splits off the first 15
digits as payload and the digit at index 15 as check digit, applies the
even-index doubling and the subtract-9 reduction to the payload, and
accepts exactly when `control + checkDigit` is divisible by 10. -/
theorem passes_luhn_split (card : List Nat) (h16 : card.length = 16) :
    passes_luhn card =
      ((luhnControl (card.take 15) + card.getD 15 0) % 10 == 0) := by
  unfold passes_luhn
  have h1 : card.dropLast = card.take 15 := by
    rw [List.dropLast_eq_take, h16]
  have h2 : card.getLastD 0 = card.getD 15 0 := by
    rw [List.getLastD_eq_getLast?, List.getLast?_eq_getElem?, h16,
      List.getD_eq_getElem?_getD]
  rw [h1, h2]

/-- C3 witness: the split characterization evaluated on the concrete
card number `"4000000034240624"`. -/
theorem passes_luhn_split_witness :
    passes_luhn [4, 0, 0, 0, 0, 0, 0, 0, 3, 4, 2, 4, 0, 6, 2, 4] =
      ((luhnControl ([4, 0, 0, 0, 0, 0, 0, 0, 3, 4, 2, 4, 0, 6, 2, 4].take 15) +
        [4, 0, 0, 0, 0, 0, 0, 0, 3, 4, 2, 4, 0, 6, 2, 4].getD 15 0) % 10 == 0) :=
  passes_luhn_split [4, 0, 0, 0, 0, 0, 0, 0, 3, 4, 2, 4, 0, 6, 2, 4] (by decide)

/-! Helper lemmas about the table operations. -/

/-- Helper: a row returned by `find_card` is a member and matches. -/
lemma find_card_some (db : Db) (n : List Nat) (row : CardRow)
    (h : find_card db n = some row) : row ∈ db ∧ row.number = n := by
  unfold find_card at h
  exact ⟨List.mem_of_find?_eq_some h, by simpa using List.find?_some h⟩

/-- Helper: with unique card numbers, any member matching `n` is the row
`find_card` returns. -/
lemma unique_match (db : Db) (n : List Nat) (row : CardRow)
    (hu : UniqueNumbers db) (h : find_card db n = some row) :
    ∀ r ∈ db, r.number = n → r = row := by
  induction db with
  | nil => simp [find_card] at h
  | cons a l ih =>
    obtain ⟨ha, hl⟩ := List.pairwise_cons.mp hu
    intro r hr hrn
    by_cases hc : a.number == n
    · have hrow : row = a := by
        unfold find_card at h
        rw [List.find?_cons_of_pos (p := fun (r : CardRow) => r.number == n) _ hc] at h
        exact (Option.some.inj h).symm
      rcases List.mem_cons.mp hr with h1 | h2
      · rw [h1, hrow]
      · exact absurd (by rw [beq_iff_eq.mp hc, ← hrn]) (ha r h2)
    · rcases List.mem_cons.mp hr with h1 | h2
      · exact absurd (h1 ▸ hrn) (by simpa using hc)
      · have h' : find_card l n = some row := by
          unfold find_card at h ⊢
          rwa [List.find?_cons_of_neg (p := fun (r : CardRow) => r.number == n) _ hc] at h
        exact ih hl h' r h2 hrn

/-- Helper: with unique card numbers, a found card number matches
exactly one row. -/
lemma countP_eq_one_of_unique (db : Db) (n : List Nat) (row : CardRow)
    (hu : UniqueNumbers db) (h : find_card db n = some row) :
    db.countP (fun r => r.number == n) = 1 := by
  induction db with
  | nil => simp [find_card] at h
  | cons a l ih =>
    obtain ⟨ha, hl⟩ := List.pairwise_cons.mp hu
    by_cases hc : a.number == n
    · rw [List.countP_cons_of_pos (fun (r : CardRow) => r.number == n) _ hc]
      have hzero : l.countP (fun r => r.number == n) = 0 := by
        rw [List.countP_eq_zero]
        intro r hr
        simp only [beq_iff_eq]
        intro hrn
        exact (ha r hr) (by rw [beq_iff_eq.mp hc, ← hrn])
      rw [hzero]
    · rw [List.countP_cons_of_neg (fun (r : CardRow) => r.number == n) _ hc]
      have h' : find_card l n = some row := by
        unfold find_card at h ⊢
        rwa [List.find?_cons_of_neg (p := fun (r : CardRow) => r.number == n) _ hc] at h
      exact ih hl h'

/-- Helper: `addBal` never changes the `number` column. -/
lemma addBal_number (n : List Nat) (a : Int) (r : CardRow) :
    (addBal n a r).number = r.number := by
  unfold addBal
  split <;> rfl

/-- Helper: `find_card` commutes with a map that preserves numbers. -/
lemma find_card_map (db : Db) (f : CardRow → CardRow)
    (hf : ∀ r, (f r).number = r.number) (n : List Nat) :
    find_card (db.map f) n = (find_card db n).map f := by
  induction db with
  | nil => rfl
  | cons a l ih =>
    unfold find_card at ih ⊢
    simp only [List.map_cons, List.find?_cons]
    rw [hf a]
    by_cases hc : a.number == n <;> simp [hc, ih]

/-- Helper: `countP` on the number column is invariant under a map that
preserves numbers. -/
lemma countP_map_number (db : Db) (f : CardRow → CardRow)
    (hf : ∀ r, (f r).number = r.number) (n : List Nat) :
    (db.map f).countP (fun r => r.number == n) =
      db.countP (fun r => r.number == n) := by
  induction db with
  | nil => rfl
  | cons a l ih => simp [List.countP_cons, hf, ih]

/-- Helper: uniqueness of numbers survives a number-preserving map. -/
lemma uniqueNumbers_map (db : Db) (f : CardRow → CardRow)
    (hf : ∀ r, (f r).number = r.number) (hu : UniqueNumbers db) :
    UniqueNumbers (db.map f) := by
  unfold UniqueNumbers at hu ⊢
  rw [List.pairwise_map]
  exact hu.imp (fun hab => by rwa [hf, hf])

/-- Helper: a successful update_balance found a row, and rewrites every
matching row to that row's balance plus the amount. -/
lemma update_balance_some (db : Db) (n : List Nat) (a : Int) (db' : Db)
    (h : update_balance db n a = some db') :
    ∃ row, find_card db n = some row ∧
      db' = db.map (fun r =>
        if r.number == n then { r with balance := row.balance + a } else r) := by
  unfold update_balance at h
  split at h
  · exact Option.noConfusion h
  next row hrow => exact ⟨row, hrow, (Option.some.inj h).symm⟩

/-- Helper: with unique numbers, update_balance is exactly the pointwise
`addBal` map. -/
lemma update_balance_unique (db : Db) (n : List Nat) (a : Int) (row : CardRow)
    (hu : UniqueNumbers db) (h : find_card db n = some row) :
    update_balance db n a = some (db.map (addBal n a)) := by
  unfold update_balance
  rw [h]
  refine congrArg some ?_
  apply List.map_congr_left
  intro r hr
  unfold addBal
  by_cases hc : r.number == n
  · rw [if_pos hc, if_pos hc, unique_match db n row hu h r hr (beq_iff_eq.mp hc)]
  · rw [if_neg hc, if_neg hc]

/-- Helper: the two update_balance legs of a transfer compose to the
single row map `transferMap`. -/
lemma transferMap_eq_comp (A B : List Nat) (amt : Int) (hne : A ≠ B) (r : CardRow) :
    addBal B amt (addBal A (-amt) r) = transferMap A B amt r := by
  unfold addBal transferMap
  by_cases hA : r.number == A
  · have hrB : r.number ≠ B := by rw [beq_iff_eq.mp hA]; exact hne
    have hB : (r.number == B) = false := beq_eq_false_iff_ne.mpr hrB
    simp [hA, hB, sub_eq_add_neg]
  · by_cases hB : r.number == B <;> simp [hA, hB]

/-- Helper: total balance after an `addBal` map grows by the amount
times the number of matching rows. -/
lemma sum_balance_addBal (db : Db) (n : List Nat) (a : Int) :
    ((db.map (addBal n a)).map (fun r => r.balance)).sum =
      ((db.map (fun r => r.balance)).sum) +
        a * (db.countP (fun r => r.number == n) : Int) := by
  induction db with
  | nil => simp
  | cons r l ih =>
    by_cases hc : r.number == n
    · rw [List.map_cons, List.map_cons, List.map_cons, List.sum_cons, List.sum_cons,
        ih, List.countP_cons_of_pos (fun (r : CardRow) => r.number == n) _ hc]
      unfold addBal
      rw [if_pos hc]
      push_cast
      ring
    · rw [List.map_cons, List.map_cons, List.map_cons, List.sum_cons, List.sum_cons,
        ih, List.countP_cons_of_neg (fun (r : CardRow) => r.number == n) _ hc]
      unfold addBal
      rw [if_neg hc]
      ring

/-- Helper: anatomy of a successful do_transfer over a table with
unique card numbers: the source and destination are distinct and
present, the amount is at most the source balance, and the new table is
the pointwise `transferMap` image. -/
lemma do_transfer_success_inv (db : Db) (A B : List Nat) (amt : Int) (db' : Db)
    (hu : UniqueNumbers db)
    (h : do_transfer db A B amt = some (.success, db')) :
    A ≠ B ∧ (get_balance db B).isSome ∧
      ∃ fb, get_balance db A = some fb ∧ amt ≤ fb ∧
        db' = db.map (transferMap A B amt) := by
  unfold do_transfer at h
  split at h
  · simp at h
  next hl =>
    split at h
    next hAB => simp at h
    next hAB =>
      have hne : A ≠ B := by simpa using hAB
      split at h
      next htb => simp at h
      next tb htb =>
        split at h
        next hfb => exact Option.noConfusion h
        next fb hfb =>
          split at h
          next hgt => simp at h
          next hgt =>
            split at h
            next hup1 => exact Option.noConfusion h
            next db1 hup1 =>
              split at h
              next hup2 => exact Option.noConfusion h
              next db2 hup2 =>
                have hdb2 : db2 = db' := by simpa using h
                obtain ⟨rowA', hfindA, hbalA⟩ := Option.map_eq_some'.mp hfb
                obtain ⟨rowB', hfindB, hbalB⟩ := Option.map_eq_some'.mp htb
                rw [update_balance_unique db A (-amt) rowA' hu hfindA] at hup1
                obtain rfl : db1 = db.map (addBal A (-amt)) := (Option.some.inj hup1).symm
                have hu1 : UniqueNumbers (db.map (addBal A (-amt))) :=
                  uniqueNumbers_map db _ (addBal_number A (-amt)) hu
                have hfindB1 : find_card (db.map (addBal A (-amt))) B =
                    some (addBal A (-amt) rowB') := by
                  rw [find_card_map db _ (addBal_number A (-amt)) B, hfindB]
                  rfl
                rw [update_balance_unique _ B amt _ hu1 hfindB1] at hup2
                obtain rfl : db2 = (db.map (addBal A (-amt))).map (addBal B amt) :=
                  (Option.some.inj hup2).symm
                refine ⟨hne, by rw [htb]; rfl, fb, hfb, le_of_not_lt hgt, ?_⟩
                rw [← hdb2, List.map_map]
                exact List.map_congr_left
                  (fun r _ => transferMap_eq_comp A B amt hne r)

/-- Helper: a transfer whose destination checks pass and whose amount is
at most the source balance succeeds and applies `transferMap`. -/
lemma do_transfer_eq_success (db : Db) (A B : List Nat) (amt fb : Int)
    (hu : UniqueNumbers db) (hl : passes_luhn B = true) (hne : A ≠ B)
    (hfb : get_balance db A = some fb) (hB : (get_balance db B).isSome)
    (hle : amt ≤ fb) :
    do_transfer db A B amt = some (.success, db.map (transferMap A B amt)) := by
  obtain ⟨tb, htb⟩ := Option.isSome_iff_exists.mp hB
  obtain ⟨rowA', hfindA, hbalA⟩ := Option.map_eq_some'.mp hfb
  obtain ⟨rowB', hfindB, hbalB⟩ := Option.map_eq_some'.mp htb
  have hu1 : UniqueNumbers (db.map (addBal A (-amt))) :=
    uniqueNumbers_map db _ (addBal_number A (-amt)) hu
  have hfindB1 : find_card (db.map (addBal A (-amt))) B =
      some (addBal A (-amt) rowB') := by
    rw [find_card_map db _ (addBal_number A (-amt)) B, hfindB]
    rfl
  have hAB : (A == B) = false := beq_eq_false_iff_ne.mpr hne
  have hnlt : ¬ fb < amt := not_lt.mpr hle
  unfold do_transfer
  simp only [hl, hAB, htb, hfb, not_true, Bool.false_eq_true, not_false_iff,
    if_true, if_false, gt_iff_lt, hnlt, ite_false, ite_true]
  simp only [update_balance_unique db A (-amt) rowA' hu hfindA,
    update_balance_unique _ B amt _ hu1 hfindB1, List.map_map]
  exact congrArg some (congrArg (Prod.mk TransferOutcome.success)
    (List.map_congr_left (fun r _ => transferMap_eq_comp A B amt hne r)))

/-- C4: balance conservation.  A successful transfer between two
distinct stored cards (in a table with unique card numbers) keeps the
sum of all balances unchanged, and rewrites the table pointwise by
`transferMap`, which touches no row other than the source and the
destination. -/
theorem transfer_conserves_total (db db' : Db) (A B : List Nat) (amt : Int)
    (hu : UniqueNumbers db)
    (h : do_transfer db A B amt = some (.success, db')) :
    ((db'.map (fun r => r.balance)).sum = (db.map (fun r => r.balance)).sum) ∧
    db' = db.map (transferMap A B amt) := by
  obtain ⟨hne, hBsome, fb, hfb, hle, hdb'⟩ :=
    do_transfer_success_inv db A B amt db' hu h
  refine ⟨?_, hdb'⟩
  obtain ⟨rowA', hfindA, hbalA⟩ := Option.map_eq_some'.mp hfb
  obtain ⟨tb, htb⟩ := Option.isSome_iff_exists.mp hBsome
  obtain ⟨rowB', hfindB, hbalB⟩ := Option.map_eq_some'.mp htb
  have hcntA : db.countP (fun r => r.number == A) = 1 :=
    countP_eq_one_of_unique db A rowA' hu hfindA
  have hcntB : db.countP (fun r => r.number == B) = 1 :=
    countP_eq_one_of_unique db B rowB' hu hfindB
  have hmap : db.map (transferMap A B amt) =
      (db.map (addBal A (-amt))).map (addBal B amt) := by
    rw [List.map_map]
    exact (List.map_congr_left (fun r _ => transferMap_eq_comp A B amt hne r)).symm
  rw [hdb', hmap, sum_balance_addBal, sum_balance_addBal,
    countP_map_number db _ (addBal_number A (-amt)) B, hcntA, hcntB]
  push_cast
  ring

/-- C4 witness: transferring 30 between the two concrete stored cards
conserves the total balance and only retouches those two rows. -/
theorem transfer_conserves_total_witness :
    ((([{ rowA with balance := 70 }, { rowB with balance := 80 }] : Db).map
        (fun r => r.balance)).sum = (dbAB.map (fun r => r.balance)).sum) ∧
    ([{ rowA with balance := 70 }, { rowB with balance := 80 }] : Db) =
      dbAB.map (transferMap cardA cardB 30) :=
  transfer_conserves_total dbAB _ cardA cardB 30 (by decide) (by decide)

/-- C5: the uniqueness check in generate_account_number runs the lookup
`SELECT * FROM card WHERE number=?` with the 9-digit draw, but the
`number` column stores 16-digit card numbers, so the check never finds
a collision: a draw equal to a stored card's account number is accepted
at once instead of being redrawn, and create_card then stores a second
copy of an existing card number. -/
theorem duplicate_account_number_accepted :
    (∃ r ∈ ([rowB] : Db), r.id = acct003424062) ∧
    generate_account_number [acct003424062] [rowB] = some acct003424062 ∧
    (create_card [acct003424062] [9, 9, 9, 9] [rowB]).map
        (fun p => p.2.countP (fun r => r.number == cardB)) = some 2 := by
  decide

/-- C6: a transfer whose amount exceeds the source balance (destination
checks having passed) returns the insufficient-funds outcome with the
table unchanged: no balance is touched. -/
theorem transfer_insufficient_funds (db : Db) (A B : List Nat) (amt fb : Int)
    (hl : passes_luhn B = true) (hne : A ≠ B)
    (hfb : get_balance db A = some fb) (hB : (get_balance db B).isSome)
    (hgt : fb < amt) :
    do_transfer db A B amt = some (.insufficientFunds, db) := by
  obtain ⟨tb, htb⟩ := Option.isSome_iff_exists.mp hB
  have hAB : (A == B) = false := beq_eq_false_iff_ne.mpr hne
  unfold do_transfer
  simp only [hl, hAB, htb, hfb, not_true, Bool.false_eq_true, not_false_iff,
    if_true, if_false, gt_iff_lt, hgt, ite_true, ite_false]

/-- C6 witness: transferring 1000 from the card holding 100 fails with
insufficient funds and leaves the concrete table unchanged. -/
theorem transfer_insufficient_funds_witness :
    do_transfer dbAB cardA cardB 1000 = some (.insufficientFunds, dbAB) :=
  transfer_insufficient_funds dbAB cardA cardB 1000 100 (by decide) (by decide)
    (by decide) (by decide) (by decide)

/-- C7 counterexample: the add-income path accepts a negative amount
and drives a stored balance negative; no ledger operation enforces
non-negativity. -/
theorem deposit_negative_balance :
    update_balance dbAB cardA (-200) =
      some [{ rowA with balance := -100 }, rowB] ∧ ((-100 : Int) < 0) := by
  decide

/-- C7 (amended): non-negativity of all stored balances is preserved by
deposits and successful transfers of non-negative amounts, thanks to
the insufficient-funds check on the source; the code itself never
rejects negative amounts, which can drive balances negative. -/
theorem nonneg_preserved_for_nonneg_amounts
    (db dbDep dbTr : Db) (n A B : List Nat) (amt : Int)
    (hu : UniqueNumbers db) (hnn : NonNegDb db) (hamt : 0 ≤ amt) :
    (update_balance db n amt = some dbDep → NonNegDb dbDep) ∧
    (do_transfer db A B amt = some (.success, dbTr) → NonNegDb dbTr) := by
  constructor
  · intro hdep
    obtain ⟨row, hrow, rfl⟩ := update_balance_some db n amt dbDep hdep
    intro r hr
    obtain ⟨s, hs, rfl⟩ := List.mem_map.mp hr
    by_cases hc : s.number == n
    · have hmem := (find_card_some db n row hrow).1
      have hrownn : 0 ≤ row.balance := hnn row hmem
      simp only [hc, if_true]
      omega
    · simp only [hc, if_false]
      exact hnn s hs
  · intro htr
    obtain ⟨hne, hBsome, fb, hfb, hle, rfl⟩ :=
      do_transfer_success_inv db A B amt dbTr hu htr
    obtain ⟨rowA', hfindA, hbalA⟩ := Option.map_eq_some'.mp hfb
    intro r hr
    obtain ⟨s, hs, rfl⟩ := List.mem_map.mp hr
    unfold transferMap
    by_cases hA : s.number == A
    · have hsA : s = rowA' := unique_match db A rowA' hu hfindA s hs (beq_iff_eq.mp hA)
      simp only [hA, if_true]
      rw [hsA, hbalA]
      omega
    · by_cases hB : s.number == B
      · have hsnn := hnn s hs
        simp only [hA, hB, Bool.false_eq_true, if_true, if_false, ite_true, ite_false]
        omega
      · simp only [hA, hB, Bool.false_eq_true, if_false, ite_false]
        exact hnn s hs

/-- C7 witness: non-negativity after a concrete deposit of 30 and a
concrete transfer of 30 on the two-card table. -/
theorem nonneg_preserved_witness :
    NonNegDb [{ rowA with balance := 130 }, rowB] ∧
    NonNegDb [{ rowA with balance := 70 }, { rowB with balance := 80 }] := by
  have h := nonneg_preserved_for_nonneg_amounts dbAB
      [{ rowA with balance := 130 }, rowB]
      [{ rowA with balance := 70 }, { rowB with balance := 80 }]
      cardA cardA cardB 30 (by decide) (by decide) (by decide)
  exact ⟨h.1 (by decide), h.2 (by decide)⟩

/-- C8 counterexample: a transfer of the negative amount −10 is not
rejected as InvalidAmount; it succeeds and moves 10 from the
destination to the source. -/
theorem transfer_negative_amount_succeeds :
    do_transfer dbAB cardA cardB (-10) =
      some (.success, [{ rowA with balance := 110 }, { rowB with balance := 40 }]) := by
  decide

/-- C8 (amended): do_transfer applies no positivity check: once the
destination has passed the Luhn, self-transfer and existence checks,
any amount at most the source balance — in particular any amount ≤ 0 —
is executed, debiting the source and crediting the destination by that
amount. -/
theorem transfer_accepts_nonpositive (db : Db) (A B : List Nat) (amt fb : Int)
    (hu : UniqueNumbers db) (hl : passes_luhn B = true) (hne : A ≠ B)
    (hfb : get_balance db A = some fb) (hB : (get_balance db B).isSome)
    (hnp : amt ≤ 0) (hle : amt ≤ fb) :
    do_transfer db A B amt = some (.success, db.map (transferMap A B amt)) :=
  do_transfer_eq_success db A B amt fb hu hl hne hfb hB hle

/-- C8 witness: the amended statement at the concrete amount −10. -/
theorem transfer_accepts_nonpositive_witness :
    do_transfer dbAB cardA cardB (-10) =
      some (.success, dbAB.map (transferMap cardA cardB (-10))) :=
  transfer_accepts_nonpositive dbAB cardA cardB (-10) 100 (by decide) (by decide)
    (by decide) (by decide) (by decide) (by decide) (by decide)

/-- C9 counterexample: a deposit of the non-positive amount −7 is not
rejected as InvalidAmount; update_balance applies it. -/
theorem deposit_nonpositive_succeeds :
    update_balance dbAB cardA (-7) = some [{ rowA with balance := 93 }, rowB] := by
  decide

/-- C9 (amended): deposit as implemented: when the card exists, any
integer amount is applied without validation and the stored balance
becomes the old balance plus the amount; when the card is absent the
balance lookup crashes (`fetchone()[0]` on `None`, modelled `none`)
instead of returning a typed NotFound result. -/
theorem deposit_semantics (db : Db) (n : List Nat) (amt b : Int)
    (hu : UniqueNumbers db) :
    (get_balance db n = some b →
      update_balance db n amt = some (db.map (addBal n amt)) ∧
      get_balance (db.map (addBal n amt)) n = some (b + amt)) ∧
    (get_balance db n = none → update_balance db n amt = none) := by
  constructor
  · intro hb
    obtain ⟨row, hfind, hbal⟩ := Option.map_eq_some'.mp hb
    refine ⟨update_balance_unique db n amt row hu hfind, ?_⟩
    unfold get_balance
    rw [find_card_map db _ (addBal_number n amt) n, hfind]
    have hnum : (row.number == n) = true :=
      beq_iff_eq.mpr (find_card_some db n row hfind).2
    simp [addBal, hnum, hbal]
  · intro hb
    unfold get_balance at hb
    unfold update_balance
    rw [Option.map_eq_none'.mp hb]

/-- C9 witness: a concrete deposit of 7 on the stored card with balance
100, and a concrete crash on a card absent from the table. -/
theorem deposit_semantics_witness :
    (update_balance dbAB cardA 7 = some (dbAB.map (addBal cardA 7)) ∧
      get_balance (dbAB.map (addBal cardA 7)) cardA = some 107) ∧
    update_balance [rowB] cardA 7 = none :=
  ⟨(deposit_semantics dbAB cardA 7 100 (by decide)).1 (by decide),
    (deposit_semantics [rowB] cardA 7 0 (by decide)).2 (by decide)⟩

/-- C10: do_transfer is total only when the source card exists.  With a
valid, distinct destination: if the destination is stored but the
source is absent, the balance comparison crashes (modelled `none`); if
the destination is absent, the transfer is rejected gracefully with the
table unchanged, before any mutation. -/
theorem transfer_missing_source_crashes (db : Db) (A B : List Nat) (amt : Int)
    (hl : passes_luhn B = true) (hne : A ≠ B) :
    ((get_balance db B).isSome → get_balance db A = none →
      do_transfer db A B amt = none) ∧
    (get_balance db B = none →
      do_transfer db A B amt = some (.destinationNotFound, db)) := by
  have hAB : (A == B) = false := beq_eq_false_iff_ne.mpr hne
  constructor
  · intro hB hA
    obtain ⟨tb, htb⟩ := Option.isSome_iff_exists.mp hB
    unfold do_transfer
    simp only [hl, hAB, htb, hA, not_true, Bool.false_eq_true, not_false_iff,
      if_true, if_false, ite_true, ite_false]
  · intro hB
    unfold do_transfer
    simp only [hl, hAB, hB, not_true, Bool.false_eq_true, not_false_iff,
      if_true, if_false, ite_true, ite_false]

/-- C10 witness: the crash with the source card absent, and the
graceful rejection with the destination absent, on concrete tables. -/
theorem transfer_missing_source_crashes_witness :
    do_transfer [rowB] cardA cardB 5 = none ∧
    do_transfer [rowA] cardA cardB 5 = some (.destinationNotFound, [rowA]) :=
  ⟨(transfer_missing_source_crashes [rowB] cardA cardB 5 (by decide) (by decide)).1
      (by decide) (by decide),
    (transfer_missing_source_crashes [rowA] cardA cardB 5 (by decide) (by decide)).2
      (by decide)⟩

end SimpleBanking
